import Mathlib

/-!
Verification of the flapjack RESTful resource protocol
(`src/flapjack/resources/base.py`, `src/flapjack/resources/__init__.py`).

The Python code is shallowly embedded: request data, resource configuration
and field metadata become Lean structures; every fallible step returns
`Except Failure _`, where `Failure.err` carries the typed
`flapjack.exceptions` errors the dispatcher renders, and `Failure.crash`
stands for an uncaught Python exception (KeyError, TypeError, NameError, ...)
that surfaces as an HTTP 500.

External collaborators (authentication providers, encoders, decoders, field
accessors, the data-access `read`) are modelled as opaque functions, matching
the narrow contracts they are consumed through.
-/

namespace Flapjack

/-- Python values as they flow through serialization: `none` is Python
`None`, `str` a string, `num` a number (the canonical non-sequence scalar),
`list` a sequence (list/tuple/queryset), `dict` a mapping. -/
inductive Value where
  | none
  | str (s : String)
  | num (n : Int)
  | list (vs : List Value)
  | dict (entries : List (String × Value))

/-- Typed errors of `flapjack.exceptions` raised during dispatch. -/
inductive Err where
  | notFound
  | notImplemented
  | methodNotAllowed (allow : String)
  | notAcceptable (available : List (String × String))
  | unsupportedMediaType
  | forbidden (allowed : List String) (message : String)
  | unauthenticated
  | badRequest
deriving DecidableEq

/-- A failing step either raised a typed `flapjack.exceptions.Error`
(`err`), or an uncaught Python exception that the view maps to a bare
HTTP 500 (`crash`). -/
inductive Failure where
  | err (e : Err)
  | crash
deriving DecidableEq

/-- The inbound request: HTTP verb, the WSGI `META` map (headers such as
`HTTP_ACCEPT`, `CONTENT_TYPE`, `HTTP_X_HTTP_METHOD_OVERRIDE`), raw body. -/
structure Request where
  method : String
  meta : List (String × String)
  body : String

/-- `self.request.META.get(key)`. -/
def lookupMeta (req : Request) (key : String) : Option String :=
  req.meta.lookup key

/-- Python `str.lower()` for the ASCII tokens that reach it. -/
def pyLower (s : String) : String := ⟨s.data.map Char.toLower⟩

/-- Python `str.upper()` for the ASCII tokens that reach it. -/
def pyUpper (s : String) : String := ⟨s.data.map Char.toUpper⟩

/-- Python `str.strip()`: remove leading and trailing whitespace. -/
def pyStrip (s : String) : String :=
  ⟨((s.data.dropWhile Char.isWhitespace).reverse.dropWhile Char.isWhitespace).reverse⟩

/-- `isinstance(value, basestring)`. -/
def isStr : Value → Bool
  | .str _ => true
  | _ => false

/-- `isinstance(value, collections.Sequence)`: in Python 2.7 the `Sequence`
ABC has `basestring`, `tuple`, `list` and `xrange` registered, so strings ARE
sequences. -/
def isSequence : Value → Bool
  | .str _ => true
  | .list _ => true
  | _ => false

/-- `isinstance(items, collections.Mapping)`. -/
def isMap : Value → Bool
  | .dict _ => true
  | _ => false

/-- Python truthiness (`if not items: ...`): `None`, `''`, `0`, `[]` and
`{}` are falsy. -/
def truthy : Value → Bool
  | .none => false
  | .str s => !s.isEmpty
  | .num n => n != 0
  | .list vs => !vs.isEmpty
  | .dict m => !m.isEmpty

/-- The collection coercion of `Resource.item_prepare`
(`resources/__init__.py` lines 509-518): `None` becomes `[]`; a string or a
non-`Sequence` value is wrapped into a one-element tuple; any other sequence
is left alone. -/
def collection_coerce (value : Value) : Value :=
  match value with
  | .none => .list []
  | v => if isStr v || !isSequence v then .list [v] else v

/-- A principal returned by an authentication provider;
`user.is_authenticated()` is its only observable. -/
structure Principal where
  is_authed : Bool

/-- An authentication protocol (`flapjack.authentication`), consumed through
the interface `authenticate(request) -> principal | None` plus the
`allow_anonymous` flag. -/
structure AuthProvider where
  check : Request → Option Principal
  allow_anonymous : Bool

/-- One iteration of the `for auth in self.authentication` loop body of
`BaseResource.authenticate` (base.py lines 361-377): a provider is accepted
when it returns a non-`None` user that is authenticated or whose provider
allows anonymous access; a `None` user is always skipped (`continue`). -/
def accepted (a : AuthProvider) (req : Request) : Option Principal :=
  match a.check req with
  | Option.none => Option.none
  | some user => if user.is_authed || a.allow_anonymous then some user else Option.none

/-- The `for ... else` loop of `BaseResource.authenticate` from the current
provider onwards: on `break` the user is returned; when the loop ends
without `break` the last provider's `Unauthenticated` is raised. -/
def authFrom (a : AuthProvider) (rest : List AuthProvider) (req : Request) :
    Except Failure Principal :=
  match accepted a req, rest with
  | some user, _ => .ok user
  | Option.none, [] => .error (.err .unauthenticated)
  | Option.none, b :: rest2 => authFrom b rest2 req

/-- `BaseResource.authenticate` (base.py lines 361-377). An empty chain is a
crash: the `raise auth.Unauthenticated` in the `else` clause would reference
the never-bound loop variable `auth` (NameError). -/
def authenticate (chain : List AuthProvider) (req : Request) : Except Failure Principal :=
  match chain with
  | [] => .error .crash
  | a :: rest => authFrom a rest req

/-- An encoder, consumed through `can_transcode(accept) -> bool`,
`mimetype`, `encode(structure) -> bytes`. -/
structure Encoder where
  can_transcode : String → Bool
  mimetype : String
  encode : Value → String

/-- The encoder configuration of a resource: the `encoders` mapping, the
ordered `allowed_encoders` list and the `default_encoder` name. -/
structure EncoderConfig where
  encoders : List (String × Encoder)
  allowed_encoders : List String
  default_encoder : String

/-- The dictionary comprehension at the tail of
`BaseResource._determine_encoder`: `{name: self.encoders[name].mimetype}` for
every allowed encoder. `self.encoders[name]` on a name missing from the
mapping is a KeyError. -/
def availableFormats (allowed : List String) (encs : List (String × Encoder)) :
    Except Failure (List (String × String)) :=
  match allowed with
  | [] => .ok []
  | n :: rest =>
    match encs.lookup n with
    | Option.none => .error .crash
    | some e =>
      match availableFormats rest encs with
      | .error f => .error f
      | .ok tail => .ok ((n, e.mimetype) :: tail)

/-- `raise exceptions.NotAcceptable(available)`. -/
def notAcceptableOf (cfg : EncoderConfig) : Except Failure (Option Encoder) :=
  match availableFormats cfg.allowed_encoders cfg.encoders with
  | .error f => .error f
  | .ok available => .error (.err (.notAcceptable available))

/-- The `for name in self.allowed_encoders` loop of
`BaseResource._determine_encoder`: iterate the allowed encoders in declared
order and return the first whose `can_transcode` accepts the `Accept`
header; `self.encoders[name]` is a plain index (KeyError on a missing name);
falling off the loop reaches the `NotAcceptable` raise. -/
def encFirstMatch (cfg : EncoderConfig) (acceptHdr : String) :
    List String → Except Failure (Option Encoder)
  | [] => notAcceptableOf cfg
  | n :: rest =>
    match cfg.encoders.lookup n with
    | Option.none => .error .crash
    | some e =>
      if e.can_transcode acceptHdr then .ok (some e) else encFirstMatch cfg acceptHdr rest

/-- `accept = self.request.META.get('HTTP_ACCEPT', '*/*')`. -/
def acceptOf (req : Request) : String :=
  (lookupMeta req "HTTP_ACCEPT").getD "*/*"

/-- `BaseResource._determine_encoder` (base.py lines 667-698). The result is
`ok (some e)` when an encoder was selected and `ok Option.none` when the
default-encoder branch returned Python `None` (`self.encoders.get` on an
unknown default). `format` is the explicit `.fmt` URL token. -/
def determine_encoder (cfg : EncoderConfig) (format : Option String) (req : Request) :
    Except Failure (Option Encoder) :=
  let accept := acceptOf req
  match format with
  | some f =>
    let name := pyLower f
    if cfg.allowed_encoders.contains name then
      match cfg.encoders.lookup name with
      | some e => .ok (some e)
      | Option.none => notAcceptableOf cfg
    else notAcceptableOf cfg
  | Option.none =>
    if pyStrip accept != "*/*" then encFirstMatch cfg accept cfg.allowed_encoders
    else .ok (cfg.encoders.lookup cfg.default_encoder)

/-- A decoder, consumed through `can_transcode(content_type) -> bool` and
`decode(body) -> structure`. -/
structure Decoder where
  can_transcode : String → Bool
  decode : String → Value

/-- `self.request.META.get('CONTENT_TYPE', 'application/octet-stream')`. -/
def contentTypeOf (req : Request) : String :=
  (lookupMeta req "CONTENT_TYPE").getD "application/octet-stream"

/-- `BaseResource._determine_decoder` (base.py lines 700-715): iterate the
configured decoders in declared order, return the first whose predicate
matches the request content type, else raise `UnsupportedMediaType`. -/
def determine_decoder (decoders : List Decoder) (req : Request) : Except Failure Decoder :=
  match decoders with
  | [] => .error (.err .unsupportedMediaType)
  | d :: rest =>
    if d.can_transcode (contentTypeOf req) then .ok d else determine_decoder rest req

/-- Method-resolution configuration: the understood verb set, the allowed
verbs per access-kind and the verbs with a bound handler
(`getattr(self, name)`), each mapped to a tag identifying the handler. -/
structure MethodConfig where
  http_method_names : List String
  http_list_allowed_methods : List String
  http_detail_allowed_methods : List String
  handlers : List (String × String)

/-- The `Allow` header of `MethodNotAllowed`:
`', '.join(m.upper() for m in allowed).strip()`. -/
def allowHeader (allowed : List String) : String :=
  pyStrip (String.intercalate ", " (allowed.map pyUpper))

/-- The effective verb of `BaseResource._determine_method`: the
`HTTP_X_HTTP_METHOD_OVERRIDE` header, when present, replaces the transport
verb; either is lowercased. -/
def effectiveMethod (req : Request) : String :=
  match lookupMeta req "HTTP_X_HTTP_METHOD_OVERRIDE" with
  | some m => pyLower m
  | Option.none => pyLower req.method

/-- `BaseResource._allowed_methods` (base.py lines 627-634): the allowed
verb set of the current access-kind — detail when the slug is non-null,
list otherwise. -/
def allowedMethodsFor (cfg : MethodConfig) (slug : Option String) : List String :=
  match slug with
  | some _ => cfg.http_detail_allowed_methods
  | Option.none => cfg.http_list_allowed_methods

/-- `BaseResource._determine_method` (base.py lines 636-665). The handler is
looked up under the effective verb: the code stores `method.upper()` into
`request.method` and immediately lowercases it again, which is the identity
on the ASCII verbs that survive the understood-set check. -/
def determine_method (cfg : MethodConfig) (slug : Option String) (req : Request) :
    Except Failure String :=
  let method := effectiveMethod req
  if !cfg.http_method_names.contains method then .error (.err .notImplemented)
  else
    let allowed := allowedMethodsFor cfg slug
    if !allowed.contains method then .error (.err (.methodNotAllowed (allowHeader allowed)))
    else
      match cfg.handlers.lookup method with
      | Option.none => .error (.err .notImplemented)
      | some h => .ok h

/-- A declared field of a `BaseResource` as `item_prepare` consumes it:
the `visible` flag, the external accessor (`field.accessor(item)`) and the
net effect of `field.prepare(self, item, value)` (hook application, relation
embedding or URI substitution), both opaque collaborator functions. -/
structure BField where
  visible : Bool
  accessor : Value → Value
  prepareVal : Value → Value

/-- The field loop of `BaseResource.item_prepare` (base.py lines 471-485):
for each visible field — skipping, when a residual path is present, every
field other than the one named by its first segment — store the prepared
accessor value under the field name. -/
def buildObj (fields : List (String × BField)) (path : List String) (item : Value) :
    List (String × Value) :=
  (fields.filter fun nf =>
      nf.2.visible && (path.isEmpty || path.head? == some nf.1)).map
    fun nf => (nf.1, nf.2.prepareVal (nf.2.accessor item))

/-- Modelled from the spec: the accessor of the cached
`fields.Field(path=...)` object (module `flapjack.resources.fields` is not in
the source tree). Per the spec it "projects through the path segments to the
addressed leaf value" and an invalid segment is the not-found condition the
caller turns into `NotFound`. -/
def pathAccessor : List String → Value → Option Value
  | [], v => some v
  | s :: rest, .dict m =>
    match m.lookup s with
    | some v => pathAccessor rest v
    | Option.none => Option.none
  | _ :: _, _ => Option.none

/-- `BaseResource.item_prepare` (base.py lines 457-498): build the object
from the fields, then, when a residual path was recorded, project through it
with the path field's accessor, turning a failed projection
(ValueError/AttributeError/TypeError) into `NotFound`. -/
def item_prepare (fields : List (String × BField)) (path : List String) (item : Value) :
    Except Failure Value :=
  let obj := Value.dict (buildObj fields path item)
  match path with
  | [] => .ok obj
  | _ :: _ =>
    match pathAccessor path obj with
    | some v => .ok v
    | Option.none => .error (.err .notFound)

/-- `BaseResource.prepare` (base.py lines 402-416): strings and mappings are
prepared as single items; other iterables have each element prepared (the
generator is consumed inside the encoder, which observes the same items and
the same first error as this eager model); non-iterables fall through the
`TypeError` to the singular case. -/
def prepare (fields : List (String × BField)) (path : List String) :
    Value → Except Failure Value
  | .list xs =>
    match xs.mapM (item_prepare fields path) with
    | .error f => .error f
    | .ok ys => .ok (.list ys)
  | v => item_prepare fields path v

/-- `BaseResource._assert_operation`'s `Forbidden` payload message for the
`read` operation. -/
def forbiddenMessage : String :=
  "Operation not allowed on `read`; see `allowed` for allowed operations."

/-- `BaseResource._allowed_operations` (base.py lines 717-724): the allowed
operations of the current access-kind. -/
def allowedOpsFor (listOps detailOps : List String) (slug : Option String) : List String :=
  match slug with
  | some _ => detailOps
  | Option.none => listOps

/-- `BaseResource.get` (base.py lines 592-621), parametrized by the value the
external `read()` returned. Detail access (`slug` non-null): a falsy result
raises `NotFound`; a non-string, non-mapping result is indexed with
`items[0]` — a TypeError (crash) when it is not a sequence. List access: a
`None` result becomes `[]`. Success pairs the data with `http.client.OK`. -/
def get (listOps detailOps : List String) (slug : Option String) (readResult : Value) :
    Except Failure (Value × Nat) :=
  let ops := allowedOpsFor listOps detailOps slug
  if !ops.contains "read" then .error (.err (.forbidden ops forbiddenMessage))
  else
    match slug with
    | some _ =>
      if !truthy readResult then .error (.err .notFound)
      else if isStr readResult || isMap readResult then .ok (readResult, 200)
      else
        match readResult with
        | .list (x :: _) => .ok (x, 200)
        | _ => .error .crash
    | Option.none =>
      match readResult with
      | .none => .ok (.list [], 200)
      | v => .ok (v, 200)

/-- `BaseResource.post` (base.py lines 623-625): no data,
`http.client.NO_CONTENT`. -/
def post : Except Failure (Value × Nat) := .ok (.none, 204)

/-- `BaseResource.clean` (base.py lines 500-511): with no `form` configured
the decoded body is returned unchanged. -/
def clean (data : Value) : Value := data

/-- The response produced by `BaseResource.make_response`. -/
structure HResponse where
  status : Nat
  content : Option String
  contentType : Option String

/-- `BaseResource.make_response` (base.py lines 379-400): non-`None` data is
encoded and the encoder's mimetype set; encoding through a `None` encoder
(an unresolvable default) is an AttributeError. -/
def make_response (enc : Option Encoder) (data : Value) (status : Nat) :
    Except Failure HResponse :=
  match data with
  | .none => .ok ⟨status, Option.none, Option.none⟩
  | d =>
    match enc with
    | Option.none => .error .crash
    | some e => .ok ⟨status, some (e.encode d), some e.mimetype⟩

/-- Everything a dispatch cycle of a `BaseResource` consumes: the
authentication chain, the verb sets, the negotiation configuration, the
declared fields, the allowed operations, and the outcome of the external
`read()` for this request. -/
structure DRes where
  authentication : List AuthProvider
  http_method_names : List String
  http_list_allowed_methods : List String
  http_detail_allowed_methods : List String
  encoders : List (String × Encoder)
  allowed_encoders : List String
  default_encoder : String
  decoders : List Decoder
  list_allowed_operations : List String
  detail_allowed_operations : List String
  fields : List (String × BField)
  readResult : Value

/-- The states the dispatch cycle passes through, in order; `decoded` and
`cleaned` record the body content at that point. -/
inductive Step where
  | authenticated
  | methodResolved
  | encoderResolved
  | decoded (content : Value)
  | cleaned (content : Value)
  | invoked
  | prepared

/-- Delegation to the verb handler resolved by `_determine_method`:
`BaseResource` binds exactly `get` and `post`. -/
def callHandler (r : DRes) (slug : Option String) (m : String) :
    Except Failure (Value × Nat) :=
  if m == "get" then get r.list_allowed_operations r.detail_allowed_operations slug r.readResult
  else if m == "post" then post
  else .error .crash

/-- The `MethodConfig` of a `BaseResource`. -/
def methodConfigOf (r : DRes) : MethodConfig :=
  ⟨r.http_method_names, r.http_list_allowed_methods, r.http_detail_allowed_methods,
    [("get", "get"), ("post", "post")]⟩

/-- The `EncoderConfig` of a `BaseResource`. -/
def encoderConfigOf (r : DRes) : EncoderConfig :=
  ⟨r.encoders, r.allowed_encoders, r.default_encoder⟩

/-- The tail of `BaseResource.dispatch` after body handling: invoke the
resolved handler, run the prepare cycle over its data and build the
response. -/
def invokeAndRespond (r : DRes) (slug : Option String) (path : List String)
    (m : String) (enc : Option Encoder) (tr : List Step) :
    Except Failure HResponse × List Step :=
  let tr := tr ++ [Step.invoked]
  match callHandler r slug m with
  | .error f => (.error f, tr)
  | .ok (data, status) =>
    match prepare r.fields path data with
    | .error f => (.error f, tr)
    | .ok pdata =>
      let tr := tr ++ [Step.prepared]
      match make_response enc pdata status with
      | .error f => (.error f, tr)
      | .ok resp => (.ok resp, tr)

/-- `BaseResource.dispatch` (base.py lines 319-359): authenticate, resolve
the verb, resolve the encoder, then — only when the body is non-empty —
resolve a decoder, decode the body and run it through `clean`, and finally
invoke the handler, prepare its data and build the response. Besides the
result, the list of `Step`s the cycle reached is returned, in order. -/
def dispatch (r : DRes) (slug format : Option String) (path : List String)
    (req : Request) : Except Failure HResponse × List Step :=
  match authenticate r.authentication req with
  | .error f => (.error f, [])
  | .ok _user =>
    let tr := [Step.authenticated]
    match determine_method (methodConfigOf r) slug req with
    | .error f => (.error f, tr)
    | .ok m =>
      let tr := tr ++ [Step.methodResolved]
      match determine_encoder (encoderConfigOf r) format req with
      | .error f => (.error f, tr)
      | .ok enc =>
        let tr := tr ++ [Step.encoderResolved]
        if req.body == "" then invokeAndRespond r slug path m enc tr
        else
          match determine_decoder r.decoders req with
          | .error f => (.error f, tr)
          | .ok dec =>
            let content := dec.decode req.body
            let tr := tr ++ [Step.decoded content]
            let content := clean content
            let tr := tr ++ [Step.cleaned content]
            invokeAndRespond r slug path m enc tr

/-- A relation on a field: the related resource (by registry name), the
`related_name` on it, and the `local` flag. -/
structure TRel where
  target : String
  related_name : String
  isLocal : Bool

/-- A field as the traverser and the URL reverser consume it. -/
structure TField where
  visible : Bool
  collection : Bool
  relation : Option TRel

/-- The ordered `_fields` of one resource class. -/
abbrev Desc := List (String × TField)

/-- The registry of resource classes, keyed by name. -/
abbrev Env := List (String × Desc)

/-- `cls._fields[name]` on the resource registered under `d`. -/
def envField (env : Env) (d name : String) : Option TField :=
  match env.lookup d with
  | some fields => fields.lookup name
  | Option.none => Option.none

/-- Modelled from the spec: one `ParentLink` of the parent chain
(`helpers.parent` lives in `flapjack.resources.helpers`, which is not in the
source tree; the spec gives `ParentLink{resource instance, slug, field name,
related_name, local}`). `resDesc`/`resSlug`/`resLocal` are the captured
parent resource instance (its class, slug and `local` flag); its own parent
chain is the tail of the enclosing list. -/
structure Hop where
  resDesc : String
  resSlug : Option String
  resLocal : Bool
  slug : Option String
  name : String
  relatedName : String
  isLocal : Bool

/-- A parent chain, nearest hop first; `[]` is a `None` parent. -/
abbrev Chain := List Hop

/-- The mutable `kwargs` dictionary `BaseResource.traverse` threads through
the recursion. `slugEntry = Option.none` models the `'slug'` KEY BEING
ABSENT (after `del kwargs['slug']`), so that a later plain `kwargs['slug']`
index is a KeyError. `localEntry` is the `'local'` entry (absent
initially). -/
structure Kw where
  slugEntry : Option String
  path : List String
  parent : Chain
  localEntry : Option Bool

/-- The outcome of `BaseResource.traverse`: the resource class to
instantiate together with the final `kwargs`, or `NotFound`, or an uncaught
exception. -/
inductive TravOut where
  | ok (cls : String) (kw : Kw)
  | notFound
  | crash

/-- `BaseResource.traverse` (base.py lines 232-285). An exhausted or
empty-headed path returns the current class (remaining segments become the
residual field-path); an unknown or invisible field name is `NotFound`; a
relation field pushes a parent link — reading `kwargs['slug']` with a plain
index, a KeyError when the entry was deleted by an earlier list-access hop —
then consumes the following segment as the new slug when the field is a
collection and a segment remains, otherwise deletes the slug entry, and
recurses into the related class. -/
def traverseGo (env : Env) : List String → String → Option String → Chain →
    Option Bool → TravOut
  | [], cls, slugEntry, parent, localEntry => .ok cls ⟨slugEntry, [], parent, localEntry⟩
  | name :: rest, cls, slugEntry, parent, localEntry =>
    if name == "" then .ok cls ⟨slugEntry, name :: rest, parent, localEntry⟩
    else
      match envField env cls name with
      | Option.none => .notFound
      | some field =>
        if !field.visible then .notFound
        else
          match field.relation with
          | Option.none => .ok cls ⟨slugEntry, name :: rest, parent, localEntry⟩
          | some rel =>
            match slugEntry with
            | Option.none => .crash
            | some s =>
              let link : Hop :=
                ⟨cls, some s, localEntry.getD false, some s, name,
                  rel.related_name, rel.isLocal⟩
              match rest with
              | r0 :: r1 =>
                if field.collection then
                  traverseGo env r1 rel.target (some r0) (link :: parent) (some rel.isLocal)
                else
                  traverseGo env (r0 :: r1) rel.target Option.none (link :: parent)
                    (some rel.isLocal)
              | [] =>
                traverseGo env [] rel.target Option.none (link :: parent) (some rel.isLocal)

/-- `BaseResource.traverse` as called by `view`: the recursion of
`traverseGo` walks the `kwargs` dictionary. -/
def traverse (env : Env) (cls : String) (kw : Kw) : TravOut :=
  traverseGo env kw.path cls kw.slugEntry kw.parent kw.localEntry

/-- A reversed URL: which of the three cached URL templates was selected and
the values substituted into it (template construction itself is Django's
`urls.py` machinery, external to the core). -/
inductive Url where
  | whole (cls : String)
  | withSlug (cls : String) (slug : String)
  | withPath (cls : String) (slug : String) (joined : String)

/-- `os.path.join(*path)` for the slash-free URL segments that reach it;
with no components at all the unpacking call is a TypeError. -/
def pathJoin : List String → Except Failure String
  | [] => .error .crash
  | segs => .ok (String.intercalate "/" segs)

/-- `BaseResource.reverse` (base.py lines 551-590). With `local` set and a
parent present, the composite relative path `[parent.name] (++ [slug] when a
slug is present and the parent's field is a collection) ++ path` is built and
reversal is delegated to the parent's resource with the parent's slug and the
parent's own chain and `local` flag; otherwise the template is picked by the
presence of `slug` and `path` and the values substituted. The field lookup
`parent.resource._fields[parent.name]` only runs when a slug is present
(`and` short-circuit) and is a KeyError on an unknown name. -/
def reverse (env : Env) (cls : String) (slug : Option String)
    (path : Option (List String)) : Chain → Bool → Except Failure Url
  | h :: rest, true =>
    let withSlugSegs : Except Failure (List String) :=
      match slug with
      | Option.none => .ok [h.name]
      | some s =>
        match envField env h.resDesc h.name with
        | Option.none => .error .crash
        | some f => .ok (if f.collection then [h.name, s] else [h.name])
    match withSlugSegs with
    | .error f => .error f
    | .ok segs => reverse env h.resDesc h.slug (some (segs ++ path.getD [])) rest h.resLocal
  | _, _ =>
    match slug with
    | Option.none => .ok (.whole cls)
    | some s =>
      match path with
      | some ps =>
        match pathJoin ps with
        | .error f => .error f
        | .ok j => .ok (.withPath cls s j)
      | Option.none => .ok (.withSlug cls s)

/-- A field of the `Resource` in `resources/__init__.py` as its
`item_prepare` consumes it: the `hidden` flag, the `collection` flag, the
optional instance-level `prepare_FOO` hook, the optional relation (carried as
the external URI reversal applied to each related value), and `field.parse`
(`Option.none` models the parse call raising, upon which the unparsed value
is kept). -/
structure IField where
  hidden : Bool
  collection : Bool
  prepareHook : Option (Value → Value)
  relationRev : Option (Value → Value)
  parse : Value → Option Value

/-- `Resource.relation_prepare` (`resources/__init__.py` lines 529-546):
reverse each related value of an iterable, or the single value (the
model-manager `.all()` probe and string character iteration do not arise for
relation values). -/
def relation_prepare (rev : Value → Value) : Value → Value
  | .list xs => .list (xs.map rev)
  | v => rev v

/-- The per-field value pipeline of `Resource.item_prepare`
(`resources/__init__.py` lines 482-524): the `prepare_FOO` hook, the
zero-argument-callable resolution (vacuous here, values carry no callables),
relation preparation, collection coercion, and `field.parse` falling back to
the unparsed value on failure. -/
def fieldValue (f : IField) (raw : Value) : Value :=
  let v := match f.prepareHook with
    | some h => h raw
    | Option.none => raw
  let v := match f.relationRev with
    | some rev => relation_prepare rev v
    | Option.none => v
  let v := if f.collection then collection_coerce v else v
  match f.parse v with
  | some p => p
  | Option.none => v

/-- One iteration of the field loop of `Resource.item_prepare`: hidden
fields are skipped; otherwise `obj[name] = ...` appends to the ordered
mapping (field names are distinct dictionary keys and distinct from the
resource-URI name, so insertion is always a fresh key). -/
def initStep (item : List (String × Value)) (obj : List (String × Value))
    (nf : String × IField) : List (String × Value) :=
  if nf.2.hidden then obj
  else obj ++ [(nf.1, fieldValue nf.2 ((item.lookup nf.1).getD Value.none))]

/-- `Resource.item_prepare` (`resources/__init__.py` lines 466-527): an
`OrderedDict` seeded with the resource URI (obtained from the external URL
reverser), then filled from the declared fields in order. The item is an
attribute map; `getattr(item, name, None)` is a lookup defaulting to
`None`. -/
def init_item_prepare (resource_uri : String) (uriValue : Value)
    (fields : List (String × IField)) (item : List (String × Value)) :
    List (String × Value) :=
  List.foldl (initStep item) [(resource_uri, uriValue)] fields

/-- The mapping of every allowed encoder's name to its mimetype (the
`NotAcceptable` payload, for configurations whose allowed names all
resolve). -/
def mimetypeMap (allowed : List String) (encs : List (String × Encoder)) :
    List (String × String) :=
  allowed.filterMap fun n => (encs.lookup n).map fun e => (n, e.mimetype)

/-- Is a failure the `UnsupportedMediaType` error? -/
def failIsUmt : Failure → Bool
  | .err .unsupportedMediaType => true
  | _ => false

/-- Does a step outcome carry the `UnsupportedMediaType` error? -/
def isUmtB {α : Type} : Except Failure α → Bool
  | .error f => failIsUmt f
  | .ok _ => false

/-- A concrete two-resource registry: `choice` has a non-collection relation
field `poll` (related name `choices`), and `poll` has a collection relation
field `choices` (related name `poll`). -/
def envC : Env :=
  [("choice", [("poll", ⟨true, false, some ⟨"poll", "choices", false⟩⟩)]),
   ("poll", [("choices", ⟨true, true, some ⟨"choice", "poll", false⟩⟩)])]

/-- A concrete resource for exercising the dispatch cycle: one
always-successful authentication provider, `get`/`post` allowed, a single
JSON encoder as default — and no decoders at all. -/
def resW : DRes :=
  ⟨[⟨fun _ => some ⟨true⟩, false⟩], ["get", "post"], ["get", "post"], ["get"],
    [("json", ⟨fun s => s == "application/json", "application/json", fun _ => "x"⟩)],
    ["json"], "json", [], ["read"], ["read"], [], .list []⟩

/-! ### Theorems -/

/-- C7 counterexample: Python 2.7 registers `basestring` with the
`collections.Sequence` ABC, so a string is an existing sequence — yet the
coercion wraps it into a one-element sequence instead of passing it through
with unchanged order and contents, refuting the claim's
sequences-pass-through clause at the concrete value `"abc"`. -/
theorem collection_coerce_string_counterexample :
    isSequence (Value.str "abc") = true ∧
    collection_coerce (Value.str "abc") = Value.list [Value.str "abc"] ∧
    collection_coerce (Value.str "abc") ≠ Value.str "abc" :=
  ⟨rfl, rfl, fun h => Value.noConfusion h⟩

/-- C7 (amended): for a `collection` field, `item_prepare`'s coercion turns
`None`/missing into an empty sequence, wraps a string or any non-sequence
value into a one-element sequence, passes a non-string sequence through with
order and contents unchanged — and consequently always yields a sequence,
never null or absent. -/
theorem collection_coerce_spec :
    collection_coerce Value.none = Value.list [] ∧
    (∀ s, collection_coerce (Value.str s) = Value.list [Value.str s]) ∧
    (∀ v, isSequence v = false → v ≠ Value.none → collection_coerce v = Value.list [v]) ∧
    (∀ vs, collection_coerce (Value.list vs) = Value.list vs) ∧
    (∀ v, ∃ ws, collection_coerce v = Value.list ws) := by
  refine ⟨rfl, fun s => rfl, fun v h hne => ?_, fun vs => rfl, fun v => ?_⟩
  · cases v <;> simp_all [collection_coerce, isSequence]
  · cases v <;> simp [collection_coerce, isSequence, isStr]

/-- C7 witness: a bare number is neither a sequence nor `None` and gets
wrapped into a one-element sequence. -/
theorem collection_coerce_spec_witness :
    collection_coerce (Value.num 5) = Value.list [Value.num 5] :=
  collection_coerce_spec.2.2.1 (Value.num 5) rfl (fun h => Value.noConfusion h)

/-- The `for ... else` loop of `authenticate` resolves to the first provider
of the remaining chain whose `accepted` outcome is non-null, and to
`Unauthenticated` when none is. -/
theorem authFrom_eq_findSome (req : Request) (a : AuthProvider) (rest : List AuthProvider) :
    authFrom a rest req =
      match (a :: rest).findSome? (fun p => accepted p req) with
      | some u => .ok u
      | Option.none => .error (.err .unauthenticated) := by
  induction rest generalizing a with
  | nil =>
    unfold authFrom
    cases h : accepted a req <;> simp [List.findSome?, h]
  | cons b tl ih =>
    unfold authFrom
    cases h : accepted a req <;> simp [List.findSome?, h, ih]

/-- C2 counterexample: a provider that declares `allow_anonymous` but
returns a null principal does NOT let the request proceed — the loop
`continue`s on a `None` user before `allow_anonymous` is ever consulted, so
the singleton chain ends in `Unauthenticated`. -/
theorem authenticate_null_anonymous_counterexample :
    (AuthProvider.mk (fun _ => Option.none) true).allow_anonymous = true ∧
    authenticate [AuthProvider.mk (fun _ => Option.none) true] ⟨"get", [], ""⟩ =
      .error (.err .unauthenticated) :=
  ⟨rfl, rfl⟩

/-- C2 (amended): the providers of a non-empty chain are tried strictly in
declared order; a provider returning a null principal is always skipped
(`allow_anonymous` notwithstanding); the first provider returning a non-null
principal that is authenticated — or any non-null principal when the
provider declares `allow_anonymous` — wins; if the chain is exhausted
without resolution, dispatch fails with `Unauthenticated`. -/
theorem authenticate_chain_spec (req : Request) (a : AuthProvider) (rest : List AuthProvider) :
    (authenticate (a :: rest) req =
      match (a :: rest).findSome? (fun p => accepted p req) with
      | some u => .ok u
      | Option.none => .error (.err .unauthenticated)) ∧
    (∀ p : AuthProvider, p.check req = Option.none → accepted p req = Option.none) ∧
    (∀ (p : AuthProvider) (u : Principal), p.check req = some u →
      accepted p req = if u.is_authed || p.allow_anonymous then some u else Option.none) := by
  refine ⟨authFrom_eq_findSome req a rest, fun p hp => ?_, fun p u hp => ?_⟩
  · simp [accepted, hp]
  · simp [accepted, hp]

/-- C2 witness: a two-provider chain where the first provider yields an
unauthenticated principal without `allow_anonymous` (skipped) and the second
yields an authenticated principal (wins). -/
theorem authenticate_chain_spec_witness :
    authenticate
      [AuthProvider.mk (fun _ => some ⟨false⟩) false,
       AuthProvider.mk (fun _ => some ⟨true⟩) false] ⟨"get", [], ""⟩ =
      .ok ⟨true⟩ := by
  have h := (authenticate_chain_spec ⟨"get", [], ""⟩
    (AuthProvider.mk (fun _ => some ⟨false⟩) false)
    [AuthProvider.mk (fun _ => some ⟨true⟩) false]).1
  rw [h]
  rfl

/-- When every allowed encoder name resolves, the payload comprehension
succeeds and maps each name to its encoder's mimetype. -/
theorem availableFormats_of_wf (allowed : List String) (encs : List (String × Encoder))
    (hwf : ∀ n ∈ allowed, (encs.lookup n).isSome = true) :
    availableFormats allowed encs = .ok (mimetypeMap allowed encs) := by
  induction allowed with
  | nil => rfl
  | cons n rest ih =>
    obtain ⟨e, he⟩ := Option.isSome_iff_exists.mp (hwf n (List.mem_cons_self n rest))
    have ih2 := ih fun m hm => hwf m (List.mem_cons_of_mem n hm)
    simp [availableFormats, he, ih2, mimetypeMap]

/-- When every allowed encoder name resolves, `NotAcceptable` carries the
name-to-mimetype mapping. -/
theorem notAcceptableOf_of_wf (cfg : EncoderConfig)
    (hwf : ∀ n ∈ cfg.allowed_encoders, (cfg.encoders.lookup n).isSome = true) :
    notAcceptableOf cfg =
      .error (.err (.notAcceptable (mimetypeMap cfg.allowed_encoders cfg.encoders))) := by
  simp [notAcceptableOf, availableFormats_of_wf _ _ hwf]

/-- When no allowed encoder's predicate matches the header, the priority
loop falls through to the `NotAcceptable` raise. -/
theorem encFirstMatch_none (cfg : EncoderConfig) (acc : String) (allowed : List String)
    (hwf : ∀ n ∈ allowed, (cfg.encoders.lookup n).isSome = true)
    (hno : ∀ n e, n ∈ allowed → cfg.encoders.lookup n = some e →
      e.can_transcode acc = false) :
    encFirstMatch cfg acc allowed = notAcceptableOf cfg := by
  induction allowed with
  | nil => rfl
  | cons n rest ih =>
    obtain ⟨e, he⟩ := Option.isSome_iff_exists.mp (hwf n (List.mem_cons_self n rest))
    have h1 := hno n e (List.mem_cons_self n rest) he
    have ih2 := ih (fun m hm => hwf m (List.mem_cons_of_mem n hm))
      (fun m e2 hm hme => hno m e2 (List.mem_cons_of_mem n hm) hme)
    simp [encFirstMatch, he, h1, ih2]

/-- C3: encoder-selection precedence. An explicit format token naming an
allowed (and resolvable) encoder is selected outright, no matter what the
`Accept` header says; with no format token, a present non-wildcard header
delegates to the priority iteration over the allowed encoders, which
selects the first whose predicate matches; an absent or full-wildcard header
selects the configured default without error; and when no step yields an
encoder the selection fails with `NotAcceptable` carrying every allowed
encoder's name mapped to its mimetype. -/
theorem determine_encoder_spec (cfg : EncoderConfig) (format : Option String) (req : Request) :
    (∀ f e, format = some f → cfg.allowed_encoders.contains (pyLower f) = true →
      cfg.encoders.lookup (pyLower f) = some e →
      determine_encoder cfg format req = .ok (some e)) ∧
    (format = Option.none → pyStrip (acceptOf req) ≠ "*/*" →
      determine_encoder cfg format req = encFirstMatch cfg (acceptOf req) cfg.allowed_encoders) ∧
    (∀ acc n rest e, cfg.encoders.lookup n = some e →
      encFirstMatch cfg acc (n :: rest) =
        if e.can_transcode acc then .ok (some e) else encFirstMatch cfg acc rest) ∧
    (format = Option.none → pyStrip (acceptOf req) = "*/*" →
      determine_encoder cfg format req = .ok (cfg.encoders.lookup cfg.default_encoder)) ∧
    ((∀ n ∈ cfg.allowed_encoders, (cfg.encoders.lookup n).isSome = true) →
      (∀ f, format = some f → cfg.allowed_encoders.contains (pyLower f) = false →
        determine_encoder cfg format req =
          .error (.err (.notAcceptable (mimetypeMap cfg.allowed_encoders cfg.encoders)))) ∧
      (format = Option.none → pyStrip (acceptOf req) ≠ "*/*" →
        (∀ n e, n ∈ cfg.allowed_encoders → cfg.encoders.lookup n = some e →
          e.can_transcode (acceptOf req) = false) →
        determine_encoder cfg format req =
          .error (.err (.notAcceptable (mimetypeMap cfg.allowed_encoders cfg.encoders))))) := by
  refine ⟨fun f e hf hc hl => ?_, fun hf hw => ?_, fun acc n rest e he => ?_,
    fun hf hw => ?_, fun hwf => ⟨fun f hf hc => ?_, fun hf hw hno => ?_⟩⟩
  · subst hf
    simp only [determine_encoder]
    rw [hc]
    simp [hl]
  · subst hf
    simp only [determine_encoder]
    rw [if_pos]
    simp [bne_iff_ne, hw]
  · simp [encFirstMatch, he]
  · subst hf
    simp only [determine_encoder]
    rw [if_neg]
    simp [bne_iff_ne, hw]
  · subst hf
    simp only [determine_encoder]
    rw [hc]
    simp [notAcceptableOf_of_wf cfg hwf]
  · subst hf
    simp only [determine_encoder]
    rw [if_pos, encFirstMatch_none cfg _ _ hwf hno, notAcceptableOf_of_wf cfg hwf]
    simp [bne_iff_ne, hw]

/-- C3 witness: a one-encoder configuration; the explicit format token
`json` selects the JSON encoder. -/
theorem determine_encoder_spec_witness :
    determine_encoder
      ⟨[("json", ⟨fun s => s == "application/json", "application/json", fun _ => "x"⟩)],
        ["json"], "json"⟩
      (some "json") ⟨"get", [("HTTP_ACCEPT", "application/xml")], ""⟩ =
      .ok (some ⟨fun s => s == "application/json", "application/json", fun _ => "x"⟩) :=
  (determine_encoder_spec
    ⟨[("json", ⟨fun s => s == "application/json", "application/json", fun _ => "x"⟩)],
      ["json"], "json"⟩
    (some "json") ⟨"get", [("HTTP_ACCEPT", "application/xml")], ""⟩).1
    "json" ⟨fun s => s == "application/json", "application/json", fun _ => "x"⟩
    rfl (by decide) rfl

/-- C4: method resolution. The override header rewrites the effective verb;
a verb outside the understood set raises `NotImplemented`; an understood
verb missing from the allowed set of the current access-kind (detail when
the slug is non-null, else list) raises `MethodNotAllowed` carrying an
`Allow` header of that access-kind's verbs uppercased; an understood,
allowed verb with no bound handler raises `NotImplemented`; otherwise the
bound handler is returned. -/
theorem determine_method_spec (cfg : MethodConfig) (slug : Option String) (req : Request) :
    (∀ o, lookupMeta req "HTTP_X_HTTP_METHOD_OVERRIDE" = some o →
      effectiveMethod req = pyLower o) ∧
    (lookupMeta req "HTTP_X_HTTP_METHOD_OVERRIDE" = Option.none →
      effectiveMethod req = pyLower req.method) ∧
    (∀ s, slug = some s → allowedMethodsFor cfg slug = cfg.http_detail_allowed_methods) ∧
    (slug = Option.none → allowedMethodsFor cfg slug = cfg.http_list_allowed_methods) ∧
    (cfg.http_method_names.contains (effectiveMethod req) = false →
      determine_method cfg slug req = .error (.err .notImplemented)) ∧
    (cfg.http_method_names.contains (effectiveMethod req) = true →
      (allowedMethodsFor cfg slug).contains (effectiveMethod req) = false →
      determine_method cfg slug req =
        .error (.err (.methodNotAllowed (allowHeader (allowedMethodsFor cfg slug))))) ∧
    (cfg.http_method_names.contains (effectiveMethod req) = true →
      (allowedMethodsFor cfg slug).contains (effectiveMethod req) = true →
      cfg.handlers.lookup (effectiveMethod req) = Option.none →
      determine_method cfg slug req = .error (.err .notImplemented)) ∧
    (∀ h, cfg.http_method_names.contains (effectiveMethod req) = true →
      (allowedMethodsFor cfg slug).contains (effectiveMethod req) = true →
      cfg.handlers.lookup (effectiveMethod req) = some h →
      determine_method cfg slug req = .ok h) := by
  refine ⟨fun o ho => ?_, fun ho => ?_, fun s hs => ?_, fun hs => ?_,
    fun h1 => ?_, fun h1 h2 => ?_, fun h1 h2 h3 => ?_, fun h h1 h2 h3 => ?_⟩
  · simp [effectiveMethod, ho]
  · simp [effectiveMethod, ho]
  · simp [allowedMethodsFor, hs]
  · simp [allowedMethodsFor, hs]
  · simp only [determine_method]
    rw [h1]
    simp
  · simp only [determine_method]
    rw [h1, h2]
    simp
  · simp only [determine_method]
    rw [h1, h2]
    simp [h3]
  · simp only [determine_method]
    rw [h1, h2]
    simp [h3]

/-- C4 witness: a `POST` request whose override header says `DELETE`, on a
detail access whose allowed verbs are only `get` and `put`: the effective
verb is `delete`, which is understood but not allowed, so resolution fails
with `MethodNotAllowed` carrying `Allow: GET, PUT`. -/
theorem determine_method_spec_witness :
    determine_method
      ⟨["get", "post", "put", "delete"], ["get", "post"], ["get", "put"],
        [("get", "get"), ("post", "post")]⟩
      (some "1")
      ⟨"POST", [("HTTP_X_HTTP_METHOD_OVERRIDE", "DELETE")], ""⟩ =
      .error (.err (.methodNotAllowed "GET, PUT")) := by
  have h := (determine_method_spec
    ⟨["get", "post", "put", "delete"], ["get", "post"], ["get", "put"],
      [("get", "get"), ("post", "post")]⟩
    (some "1")
    ⟨"POST", [("HTTP_X_HTTP_METHOD_OVERRIDE", "DELETE")], ""⟩).2.2.2.2.2.1
    (by decide) (by decide)
  rw [h]
  rfl

/-- C10 counterexample: `read()` may return a single non-indexable object
(the data-access contract is `iterable | single | null`); on detail access
the code runs `items = items[0]` on it — a number such as `5` is truthy,
neither a string nor a mapping, and not indexable, so `get` dies with an
uncaught TypeError (HTTP 500) instead of being "reduced to its first
element". -/
theorem get_unindexable_counterexample :
    get ["read"] ["read"] (some "1") (Value.num 5) = .error .crash := rfl

/-- C10 (amended): with `read` allowed, detail access turns a falsy
(`None`/empty) `read` result into `NotFound`, reduces a non-empty sequence
to its first element, returns a non-empty string or mapping whole, and
crashes with an uncaught TypeError on a truthy non-indexable result; list
access turns only `None` into `[]` and passes anything else through; every
successful `get` carries status `200 OK`; and an operation set without
`read` is `Forbidden` with the allowed-operations payload. -/
theorem get_spec (lOps dOps : List String) :
    (∀ s v, dOps.contains "read" = true → truthy v = false →
      get lOps dOps (some s) v = .error (.err .notFound)) ∧
    (∀ s x xs, dOps.contains "read" = true →
      get lOps dOps (some s) (.list (x :: xs)) = .ok (x, 200)) ∧
    (∀ s v, dOps.contains "read" = true → truthy v = true → (isStr v || isMap v) = true →
      get lOps dOps (some s) v = .ok (v, 200)) ∧
    (∀ s n, dOps.contains "read" = true → n ≠ 0 →
      get lOps dOps (some s) (.num n) = .error .crash) ∧
    (lOps.contains "read" = true →
      get lOps dOps Option.none Value.none = .ok (.list [], 200)) ∧
    (∀ v, lOps.contains "read" = true → v ≠ Value.none →
      get lOps dOps Option.none v = .ok (v, 200)) ∧
    (∀ slug v d n, get lOps dOps slug v = .ok (d, n) → n = 200) ∧
    (∀ slug v, (allowedOpsFor lOps dOps slug).contains "read" = false →
      get lOps dOps slug v =
        .error (.err (.forbidden (allowedOpsFor lOps dOps slug) forbiddenMessage))) := by
  refine ⟨fun s v h1 h2 => ?_, fun s x xs h1 => ?_, fun s v h1 h2 h3 => ?_,
    fun s n h1 h2 => ?_, fun h1 => ?_, fun v h1 h2 => ?_, fun slug v d n h => ?_,
    fun slug v h1 => ?_⟩
  · simp only [get, allowedOpsFor]
    rw [h1, h2]
    simp
  · simp only [get, allowedOpsFor]
    rw [h1]
    simp [truthy, isStr, isMap]
  · simp only [get, allowedOpsFor]
    rw [h1, h2, h3]
    simp
  · simp only [get, allowedOpsFor]
    rw [h1]
    have ht : truthy (Value.num n) = true := by simp [truthy, h2]
    rw [ht]
    simp [isStr, isMap]
  · simp only [get, allowedOpsFor]
    rw [h1]
    simp
  · simp only [get, allowedOpsFor]
    rw [h1]
    cases v <;> simp_all
  · cases slug <;> cases v <;> simp only [get, allowedOpsFor] at h <;>
      (repeat' split at h) <;> simp_all
  · simp only [get]
    rw [h1]
    simp

/-- C10 witness: detail access on a one-element queryset yields its single
object with status 200. -/
theorem get_spec_witness :
    get ["read"] ["read"] (some "1") (Value.list [Value.num 7]) = .ok (Value.num 7, 200) :=
  (get_spec ["read"] ["read"]).2.1 "1" (Value.num 7) [] rfl

/-- The residual-path filter inside the field loop only drops fields the
projection never looks at: looking up the first path segment in the filtered
object equals looking it up in the full (unfiltered) object. -/
theorem buildObj_head_lookup (fields : List (String × BField)) (p0 : String)
    (rest : List String) (item : Value) :
    (buildObj fields (p0 :: rest) item).lookup p0 = (buildObj fields [] item).lookup p0 := by
  induction fields with
  | nil => rfl
  | cons nf tl ih =>
    cases hv : nf.2.visible with
    | false => simpa [buildObj, List.filter_cons, hv] using ih
    | true =>
      cases he : p0 == nf.1 with
      | true =>
        simp [buildObj, List.filter_cons, hv, he, List.lookup]
      | false =>
        simpa [buildObj, List.filter_cons, hv, he, List.lookup] using ih

/-- C6: when traversal recorded a residual field-path, `item_prepare`
produces exactly the single leaf value addressed by projecting the path
through the full prepared item mapping (the in-loop filter being a
projection-invariant optimization), and an invalid segment anywhere in the
projection yields `NotFound` rather than an uncaught crash. -/
theorem item_prepare_residual_projection (fields : List (String × BField))
    (path : List String) (item : Value) (h : path ≠ []) :
    item_prepare fields path item =
      match pathAccessor path (Value.dict (buildObj fields [] item)) with
      | some v => .ok v
      | Option.none => .error (.err .notFound) := by
  cases path with
  | nil => exact absurd rfl h
  | cons p0 rest =>
    simp only [item_prepare, pathAccessor, buildObj_head_lookup fields p0 rest item]

/-- C6 witness: a two-segment residual path projecting into an embedded
mapping returns the addressed leaf; the same item with an invalid second
segment is `NotFound`. -/
theorem item_prepare_residual_projection_witness :
    item_prepare
      [("choices", ⟨true, fun _ => Value.dict [("choice_text", Value.str "x")], id⟩)]
      ["choices", "choice_text"] (Value.dict []) = .ok (Value.str "x") ∧
    item_prepare
      [("choices", ⟨true, fun _ => Value.dict [("choice_text", Value.str "x")], id⟩)]
      ["choices", "oops"] (Value.dict []) = .error (.err .notFound) := by
  constructor
  · rw [item_prepare_residual_projection _ _ _ (by decide)]
    rfl
  · rw [item_prepare_residual_projection _ _ _ (by decide)]
    rfl

/-- The field loop appends one entry per non-hidden field, in declaration
order, after whatever the accumulator already holds. -/
theorem initStep_foldl_keys (item : List (String × Value)) (fields : List (String × IField)) :
    ∀ acc : List (String × Value),
      (List.foldl (initStep item) acc fields).map Prod.fst =
        acc.map Prod.fst ++ (fields.filter fun nf => !nf.2.hidden).map Prod.fst := by
  induction fields with
  | nil => simp
  | cons nf tl ih =>
    intro acc
    cases hh : nf.2.hidden with
    | true => simp [initStep, List.filter_cons, hh, ih]
    | false => simp [initStep, List.filter_cons, hh, ih]

/-- C8: for every descriptor and every item — whichever fields the item
populates, since the item only influences values, never keys — the mapping
`Resource.item_prepare` produces lists the configured resource-URI field
first and then exactly the non-hidden fields in declaration order. -/
theorem init_item_prepare_field_order (resource_uri : String) (uriValue : Value)
    (fields : List (String × IField)) (item : List (String × Value)) :
    (init_item_prepare resource_uri uriValue fields item).map Prod.fst =
      resource_uri :: (fields.filter fun nf => !nf.2.hidden).map Prod.fst := by
  simp [init_item_prepare, initStep_foldl_keys]

/-- C1: traversal deletes the `slug` kwargs entry on a list-access hop
(`del kwargs['slug']` — the non-collection branch), and the next relation
hop indexes `kwargs['slug']` unconditionally, so
`/choice/3/poll/choices` dies with an uncaught KeyError (HTTP 500) instead
of pushing a `ParentLink` with the null slug and repeating. The second
conjunct evaluates the prefix `/choice/3/poll`, confirming the hop itself
succeeds and leaves the slug entry deleted (list access). -/
theorem traverse_noncollection_then_relation_crash :
    traverse envC "choice" ⟨some "3", ["poll", "choices"], [], Option.none⟩ = .crash ∧
    traverse envC "choice" ⟨some "3", ["poll"], [], Option.none⟩ =
      .ok "poll"
        ⟨Option.none, [],
         [⟨"choice", some "3", false, some "3", "poll", "choices", false⟩],
         some false⟩ :=
  ⟨rfl, rfl⟩

/-- C9: `reverse`. With `local` set and a parent present, the composite
relative path accumulates the parent's field name, then the slug when one is
present and the parent's field is a collection, then the existing path, and
reversal is delegated to the parent's resource (with the parent's own chain
and `local` flag, recursing until a non-local ancestor); otherwise the URL
template is chosen by the presence of slug and path and the values are
substituted positionally. -/
theorem reverse_spec (env : Env) (cls : String) :
    (∀ (h : Hop) (rest : Chain) (path : Option (List String)),
      reverse env cls Option.none path (h :: rest) true =
        reverse env h.resDesc h.slug (some ([h.name] ++ path.getD [])) rest h.resLocal) ∧
    (∀ (h : Hop) (rest : Chain) (path : Option (List String)) (s : String) (f : TField),
      envField env h.resDesc h.name = some f → f.collection = true →
      reverse env cls (some s) path (h :: rest) true =
        reverse env h.resDesc h.slug (some ([h.name, s] ++ path.getD [])) rest h.resLocal) ∧
    (∀ (h : Hop) (rest : Chain) (path : Option (List String)) (s : String) (f : TField),
      envField env h.resDesc h.name = some f → f.collection = false →
      reverse env cls (some s) path (h :: rest) true =
        reverse env h.resDesc h.slug (some ([h.name] ++ path.getD [])) rest h.resLocal) ∧
    (∀ (chain : Chain) (isLoc : Bool) (path : Option (List String)),
      chain = [] ∨ isLoc = false →
      reverse env cls Option.none path chain isLoc = .ok (.whole cls)) ∧
    (∀ (chain : Chain) (isLoc : Bool) (s p0 : String) (ps : List String),
      chain = [] ∨ isLoc = false →
      reverse env cls (some s) (some (p0 :: ps)) chain isLoc =
        .ok (.withPath cls s (String.intercalate "/" (p0 :: ps)))) ∧
    (∀ (chain : Chain) (isLoc : Bool) (s : String),
      chain = [] ∨ isLoc = false →
      reverse env cls (some s) Option.none chain isLoc = .ok (.withSlug cls s)) := by
  refine ⟨fun h rest path => rfl, fun h rest path s f hf hc => ?_,
    fun h rest path s f hf hc => ?_, fun chain isLoc path hnl => ?_,
    fun chain isLoc s p0 ps hnl => ?_, fun chain isLoc s hnl => ?_⟩
  · simp [reverse, hf, hc]
  · simp [reverse, hf, hc]
  · rcases hnl with hc | hl
    · subst hc
      rfl
    · subst hl
      cases chain <;> rfl
  · rcases hnl with hc | hl
    · subst hc
      rfl
    · subst hl
      cases chain <;> rfl
  · rcases hnl with hc | hl
    · subst hc
      rfl
    · subst hl
      cases chain <;> rfl

/-- C9 witness: reversing a local `choice` under its parent `poll` (slug
`1`, collection field `choices`, detail slug `2`) accumulates
`choices/2` and delegates to the non-local `poll`, which substitutes the
slug-with-path template. -/
theorem reverse_spec_witness :
    reverse envC "choice" (some "2") Option.none
      [⟨"poll", some "1", false, some "1", "choices", "poll", false⟩] true =
      .ok (.withPath "poll" "1" "choices/2") := by
  have h := (reverse_spec envC "choice").2.1
    ⟨"poll", some "1", false, some "1", "choices", "poll", false⟩ [] Option.none "2"
    ⟨true, true, some ⟨"choice", "poll", false⟩⟩ rfl rfl
  rw [h]
  rfl

/-- A propagated error keeps its classification even when rethrown at a
different result type. -/
theorem isUmtB_error_elim {α β : Type} {r : Except Failure α} {f : Failure}
    (h : r = Except.error f) (hr : isUmtB r = false) :
    isUmtB (Except.error f : Except Failure β) = false := by
  subst h
  exact hr

/-- Bridge from the boolean classifier to the disequality. -/
theorem ne_umt_of_isUmtB {α : Type} {r : Except Failure α} (h : isUmtB r = false) :
    r ≠ .error (.err .unsupportedMediaType) := by
  intro hc
  subst hc
  simp [isUmtB, failIsUmt] at h

/-- The authentication chain never raises `UnsupportedMediaType`. -/
theorem authenticate_not_umt (chain : List AuthProvider) (req : Request) :
    isUmtB (authenticate chain req) = false := by
  cases chain with
  | nil => rfl
  | cons a rest =>
    show isUmtB (authFrom a rest req) = false
    rw [authFrom_eq_findSome]
    split <;> rfl

/-- Method resolution never raises `UnsupportedMediaType`. -/
theorem determine_method_not_umt (cfg : MethodConfig) (slug : Option String)
    (req : Request) : isUmtB (determine_method cfg slug req) = false := by
  simp only [determine_method]
  repeat' split
  all_goals rfl

/-- The `NotAcceptable` payload comprehension never yields
`UnsupportedMediaType`. -/
theorem availableFormats_not_umt (allowed : List String) (encs : List (String × Encoder)) :
    isUmtB (availableFormats allowed encs) = false := by
  induction allowed with
  | nil => rfl
  | cons n rest ih =>
    simp only [availableFormats]
    split
    · rfl
    · split
      · next g hg => exact isUmtB_error_elim hg ih
      · rfl

/-- The `NotAcceptable` raise never carries `UnsupportedMediaType`. -/
theorem notAcceptableOf_not_umt (cfg : EncoderConfig) :
    isUmtB (notAcceptableOf cfg) = false := by
  simp only [notAcceptableOf]
  split
  · next g hg =>
    exact isUmtB_error_elim hg (availableFormats_not_umt cfg.allowed_encoders cfg.encoders)
  · rfl

/-- The encoder priority loop never raises `UnsupportedMediaType`. -/
theorem encFirstMatch_not_umt (cfg : EncoderConfig) (acc : String) (allowed : List String) :
    isUmtB (encFirstMatch cfg acc allowed) = false := by
  induction allowed with
  | nil => exact notAcceptableOf_not_umt cfg
  | cons n rest ih =>
    simp only [encFirstMatch]
    split
    · rfl
    · split
      · rfl
      · exact ih

/-- Encoder selection never raises `UnsupportedMediaType`. -/
theorem determine_encoder_not_umt (cfg : EncoderConfig) (format : Option String)
    (req : Request) : isUmtB (determine_encoder cfg format req) = false := by
  simp only [determine_encoder]
  split
  · split
    · split
      · rfl
      · exact notAcceptableOf_not_umt cfg
    · exact notAcceptableOf_not_umt cfg
  · split
    · exact encFirstMatch_not_umt cfg _ _
    · rfl

/-- The `get` handler never raises `UnsupportedMediaType`. -/
theorem get_not_umt (lOps dOps : List String) (slug : Option String) (v : Value) :
    isUmtB (get lOps dOps slug v) = false := by
  simp only [get]
  repeat' split
  all_goals rfl

/-- The handler delegation never raises `UnsupportedMediaType`. -/
theorem callHandler_not_umt (r : DRes) (slug : Option String) (m : String) :
    isUmtB (callHandler r slug m) = false := by
  simp only [callHandler]
  split
  · exact get_not_umt _ _ _ _
  · split <;> rfl

/-- `item_prepare` never raises `UnsupportedMediaType`. -/
theorem item_prepare_not_umt (fields : List (String × BField)) (path : List String)
    (item : Value) : isUmtB (item_prepare fields path item) = false := by
  simp only [item_prepare]
  split
  · rfl
  · split <;> rfl

/-- Preparing every element of an iterable never raises
`UnsupportedMediaType`. -/
theorem mapM_item_prepare_not_umt (fields : List (String × BField)) (path : List String)
    (xs : List Value) : isUmtB (xs.mapM (item_prepare fields path)) = false := by
  induction xs with
  | nil => rfl
  | cons x tl ih =>
    rw [List.mapM_cons]
    cases hx : item_prepare fields path x with
    | error f => exact isUmtB_error_elim hx (item_prepare_not_umt fields path x)
    | ok y =>
      cases ht : tl.mapM (item_prepare fields path) with
      | error g => exact isUmtB_error_elim ht ih
      | ok ys => rfl

/-- The prepare cycle never raises `UnsupportedMediaType`. -/
theorem prepare_not_umt (fields : List (String × BField)) (path : List String)
    (data : Value) : isUmtB (prepare fields path data) = false := by
  cases data with
  | list xs =>
    simp only [prepare]
    split
    · next g hg => exact isUmtB_error_elim hg (mapM_item_prepare_not_umt fields path xs)
    · rfl
  | none => exact item_prepare_not_umt _ _ _
  | str s => exact item_prepare_not_umt _ _ _
  | num n => exact item_prepare_not_umt _ _ _
  | dict m => exact item_prepare_not_umt _ _ _

/-- Response construction never raises `UnsupportedMediaType`. -/
theorem make_response_not_umt (enc : Option Encoder) (data : Value) (status : Nat) :
    isUmtB (make_response enc data status) = false := by
  simp only [make_response]
  repeat' split
  all_goals rfl

/-- Everything after body handling never raises `UnsupportedMediaType`. -/
theorem invokeAndRespond_not_umt (r : DRes) (slug : Option String) (path : List String)
    (m : String) (enc : Option Encoder) (tr : List Step) :
    isUmtB (invokeAndRespond r slug path m enc tr).1 = false := by
  simp only [invokeAndRespond]
  split
  · next f hf => exact isUmtB_error_elim hf (callHandler_not_umt r slug m)
  · next data status hp =>
    split
    · next g hg => exact isUmtB_error_elim hg (prepare_not_umt r.fields path data)
    · next pdata hpd =>
      split
      · next g hg => exact isUmtB_error_elim hg (make_response_not_umt enc pdata status)
      · rfl

/-- The trace of the post-body stages extends the incoming trace and never
contains a `decoded` step. -/
theorem invokeAndRespond_trace (r : DRes) (slug : Option String) (path : List String)
    (m : String) (enc : Option Encoder) (tr : List Step) :
    ∃ ex, (invokeAndRespond r slug path m enc tr).2 = tr ++ [Step.invoked] ++ ex ∧
      ∀ v, Step.decoded v ∉ ex := by
  simp only [invokeAndRespond]
  split
  · exact ⟨[], by simp, by simp⟩
  · split
    · exact ⟨[], by simp, by simp⟩
    · split
      · exact ⟨[Step.prepared], by simp, by simp⟩
      · exact ⟨[Step.prepared], by simp, by simp⟩

/-- C5: body decoding. A request with an empty body never reaches a
`decoded` state and never fails with `UnsupportedMediaType`; decoder
selection iterates the configured decoders in declared order and takes the
first whose predicate matches the request content type, failing with
`UnsupportedMediaType` when none does; and with a non-empty body (once
authentication, method and encoder resolution have succeeded) a failed
decoder selection makes the whole dispatch fail with
`UnsupportedMediaType`, while a successful one decodes the body and passes
the result through the `clean` hook before the handler is invoked — in that
order. -/
theorem dispatch_decode_spec (r : DRes) (slug format : Option String)
    (path : List String) (req : Request) :
    (req.body = "" →
      (dispatch r slug format path req).1 ≠ .error (.err .unsupportedMediaType) ∧
      ∀ v, Step.decoded v ∉ (dispatch r slug format path req).2) ∧
    (∀ req2 : Request, determine_decoder [] req2 = .error (.err .unsupportedMediaType)) ∧
    (∀ (d : Decoder) (ds : List Decoder) (req2 : Request),
      determine_decoder (d :: ds) req2 =
        if d.can_transcode (contentTypeOf req2) then .ok d else determine_decoder ds req2) ∧
    (req.body ≠ "" →
      ∀ u m enc,
        authenticate r.authentication req = .ok u →
        determine_method (methodConfigOf r) slug req = .ok m →
        determine_encoder (encoderConfigOf r) format req = .ok enc →
        (determine_decoder r.decoders req = .error (.err .unsupportedMediaType) →
          (dispatch r slug format path req).1 = .error (.err .unsupportedMediaType)) ∧
        (∀ dec, determine_decoder r.decoders req = .ok dec →
          ∃ ex, (dispatch r slug format path req).2 =
            [Step.authenticated, Step.methodResolved, Step.encoderResolved,
             Step.decoded (dec.decode req.body), Step.cleaned (clean (dec.decode req.body)),
             Step.invoked] ++ ex)) := by
  refine ⟨fun hb => ⟨?_, ?_⟩, fun req2 => rfl, fun d ds req2 => rfl,
    fun hb u m enc hau hm he => ?_⟩
  · apply ne_umt_of_isUmtB
    simp only [dispatch]
    split
    · next f hf => exact isUmtB_error_elim hf (authenticate_not_umt r.authentication req)
    · split
      · next f hf =>
        exact isUmtB_error_elim hf (determine_method_not_umt (methodConfigOf r) slug req)
      · next m2 hm2 =>
        split
        · next f hf =>
          exact isUmtB_error_elim hf
            (determine_encoder_not_umt (encoderConfigOf r) format req)
        · next enc2 he2 =>
          rw [hb]
          simp only [beq_self_eq_true, if_true]
          exact invokeAndRespond_not_umt r slug path m2 enc2 _
  · simp only [dispatch]
    split
    · simp
    · split
      · simp
      · next m2 hm2 =>
        split
        · simp
        · next enc2 he2 =>
          rw [hb]
          simp only [beq_self_eq_true, if_true]
          obtain ⟨ex, hex, hni⟩ := invokeAndRespond_trace r slug path m2 enc2
            ([Step.authenticated] ++ [Step.methodResolved] ++ [Step.encoderResolved])
          intro v
          rw [hex]
          simp
          exact hni v
  · have hb2 : (req.body == "") = false := by
      simp [hb]
    constructor
    · intro hdec
      simp only [dispatch, hau, hm, he]
      split
      · next hcond =>
        rw [hb2] at hcond
        exact absurd hcond (by simp)
      · simp only [hdec]
    · intro dec hdec
      simp only [dispatch, hau, hm, he]
      split
      · next hcond =>
        rw [hb2] at hcond
        exact absurd hcond (by simp)
      · simp only [hdec]
        obtain ⟨ex, hex, _⟩ := invokeAndRespond_trace r slug path m enc
          ([Step.authenticated] ++ [Step.methodResolved] ++ [Step.encoderResolved] ++
            [Step.decoded (dec.decode req.body)] ++
            [Step.cleaned (clean (dec.decode req.body))])
        refine ⟨ex, ?_⟩
        rw [hex]
        simp

/-- C5 witness: on the decoder-less resource, a `POST` with an empty body
sails past body handling, while the same `POST` with a one-byte body fails
with `UnsupportedMediaType`. -/
theorem dispatch_decode_spec_witness :
    (dispatch resW Option.none Option.none [] ⟨"post", [], ""⟩).1 ≠
      .error (.err .unsupportedMediaType) ∧
    (dispatch resW Option.none Option.none [] ⟨"post", [], "x"⟩).1 =
      .error (.err .unsupportedMediaType) := by
  constructor
  · exact ((dispatch_decode_spec resW Option.none Option.none [] ⟨"post", [], ""⟩).1 rfl).1
  · exact ((dispatch_decode_spec resW Option.none Option.none [] ⟨"post", [], "x"⟩).2.2.2
      (by decide) ⟨true⟩ "post"
      (some ⟨fun s => s == "application/json", "application/json", fun _ => "x"⟩)
      rfl rfl rfl).1 rfl

end Flapjack
